import Mathlib

/-!
Verification development for the timeline gap-filling and fragment-stitching
engine (`GapWriter`) of the hydrogen-web Matrix client.

The `GapWriter` class itself (`writeFragmentFill`, `writeContext`,
`_findOverlappingEventsFor`, `_storeEvents`, `_findMember`,
`_updateFragments`, `_linkOverlapping`, `_createNewFragment` and the small
edge-lookup helpers) is embedded from the source file
`src/matrix/timeline/persistence/GapWriter.js` shipped in this repository.
Collaborators that the source imports but whose code is not part of the
sources at hand (the storage layer, `FragmentBoundaryEntry`, `EventKey`,
`Direction`, `RoomMember`, `createEventEntry`, `directionalAppend`) are
modelled from the specification; each such definition carries a doc comment
starting with `Modelled from the spec:`.

Conventions of the embedding:
* JavaScript objects become Lean structures; in-place mutation becomes
  explicit value threading.  Storage reads return fresh copies, matching
  IndexedDB structured-clone semantics.
* Fallible code returns `Except String`; a thrown `Error` is `.error msg`
  and aborts the whole call (the enclosing transaction is rolled back by
  the caller, so an error leaves storage untouched).
* `while` loops over a shrinking list are written with an explicit fuel
  parameter that every call site instantiates with the length of the list
  being consumed; since every iteration drops at least one element this
  fuel can never run out (the fuel-exhaustion branch returns an error that
  is proven unreachable by the fuel bound carried through the lemmas).
-/

/-- Modelled from the spec: pagination direction, two values
`Forward`/`Backward` with `isForward`, `isBackward`, `reverse()`. -/
inductive Direction
  | forward
  | backward
deriving DecidableEq, Repr

def Direction.isForward : Direction → Bool
  | .forward => true
  | .backward => false

def Direction.isBackward : Direction → Bool
  | .forward => false
  | .backward => true

def Direction.reverse : Direction → Direction
  | .forward => .backward
  | .backward => .forward

/-- Event content as far as member resolution needs it (display name,
avatar, membership); other payload fields are irrelevant to the engine. -/
structure EventContent where
  displayname : Option String := none
  avatar_url : Option String := none
  membership : Option String := none
deriving DecidableEq, Repr

/-- A server-side timeline event: `event_id`, `type`, `state_key`,
`sender`, `content`, optional `prev_content`. -/
structure TimelineEvent where
  event_id : String
  type : String := "m.room.message"
  state_key : Option String := none
  sender : String := "@u:hs"
  content : EventContent := {}
  prev_content : Option EventContent := none
deriving DecidableEq, Repr

/-- Modelled from the spec: the `m.room.member` event type constant from
`RoomMember.js` (imported as `EVENT_TYPE as MEMBER_EVENT_TYPE`). -/
def MEMBER_EVENT_TYPE : String := "m.room.member"

/-- Modelled from the spec: `EventKey` is a `(fragmentId, eventIndex)`
pair with a designated neutral midpoint per fragment and
`nextKeyForDirection` moving the index by +1 (Forward) or -1 (Backward). -/
structure EventKey where
  fragmentId : Nat
  eventIndex : Int
deriving DecidableEq, Repr

/-- Modelled from the spec: the neutral midpoint storage key used by
`EventKey.defaultFragmentKey` for fragments that hold no events yet. -/
def middleStorageKey : Int := 2147483647

def EventKey.defaultFragmentKey (fragmentId : Nat) : EventKey :=
  { fragmentId := fragmentId, eventIndex := middleStorageKey }

def EventKey.nextKeyForDirection (k : EventKey) (dir : Direction) : EventKey :=
  if dir.isForward then
    { k with eventIndex := k.eventIndex + 1 }
  else
    { k with eventIndex := k.eventIndex - 1 }

/-- A timeline fragment record as persisted in the `timelineFragments`
store: `{ id, roomId, previousId, nextId, previousToken, nextToken,
edgeReached }`. -/
structure Fragment where
  roomId : String
  id : Nat
  previousId : Option Nat := none
  nextId : Option Nat := none
  previousToken : Option String := none
  nextToken : Option String := none
  edgeReached : Bool := false
deriving DecidableEq, Repr

/-- Modelled from the spec: `FragmentBoundaryEntry` is a transient view of
one end of a fragment — the fragment plus a direction bit
(`isFragmentStart = true` is the start/previous edge, i.e. direction
Backward; `false` the end/next edge, direction Forward).  Its `token` and
`linkedFragmentId` accessors are side-selected by that bit. -/
structure FragmentBoundaryEntry where
  fragment : Fragment
  isFragmentStart : Bool
deriving DecidableEq, Repr

def FragmentBoundaryEntry.direction (b : FragmentBoundaryEntry) : Direction :=
  if b.isFragmentStart then .backward else .forward

def FragmentBoundaryEntry.fragmentId (b : FragmentBoundaryEntry) : Nat :=
  b.fragment.id

def FragmentBoundaryEntry.token (b : FragmentBoundaryEntry) : Option String :=
  if b.isFragmentStart then b.fragment.previousToken else b.fragment.nextToken

def FragmentBoundaryEntry.setToken (b : FragmentBoundaryEntry) (t : Option String) :
    FragmentBoundaryEntry :=
  if b.isFragmentStart then
    { b with fragment := { b.fragment with previousToken := t } }
  else
    { b with fragment := { b.fragment with nextToken := t } }

def FragmentBoundaryEntry.linkedFragmentId (b : FragmentBoundaryEntry) : Option Nat :=
  if b.isFragmentStart then b.fragment.previousId else b.fragment.nextId

def FragmentBoundaryEntry.setLinkedFragmentId (b : FragmentBoundaryEntry)
    (i : Option Nat) : FragmentBoundaryEntry :=
  if b.isFragmentStart then
    { b with fragment := { b.fragment with previousId := i } }
  else
    { b with fragment := { b.fragment with nextId := i } }

def FragmentBoundaryEntry.hasLinkedFragment (b : FragmentBoundaryEntry) : Bool :=
  b.linkedFragmentId.isSome

def FragmentBoundaryEntry.setEdgeReached (b : FragmentBoundaryEntry) (r : Bool) :
    FragmentBoundaryEntry :=
  { b with fragment := { b.fragment with edgeReached := r } }

def FragmentBoundaryEntry.withUpdatedFragment (b : FragmentBoundaryEntry)
    (f : Fragment) : FragmentBoundaryEntry :=
  { b with fragment := f }

/-- Modelled from the spec: `FragmentBoundaryEntry.end(fragment)` — the
boundary at the end (next) edge of a fragment, direction Forward. -/
def FragmentBoundaryEntry.endBoundary (f : Fragment) : FragmentBoundaryEntry :=
  { fragment := f, isFragmentStart := false }

/-- Modelled from the spec: `FragmentBoundaryEntry.start(fragment)` — the
boundary at the start (previous) edge of a fragment, direction Backward. -/
def FragmentBoundaryEntry.startBoundary (f : Fragment) : FragmentBoundaryEntry :=
  { fragment := f, isFragmentStart := true }

/-- A row of the `timelineEvents` store: the event plus its storage key and
the display-name/avatar snapshot stamped at insert time
(`createEventEntry` plus the member stamping in `_storeEvents`). -/
structure EventStorageEntry where
  roomId : String
  fragmentId : Nat
  eventIndex : Int
  event : TimelineEvent
  displayName : Option String := none
  avatarUrl : Option String := none
deriving DecidableEq, Repr

/-- The heterogeneous entries list produced by the engine: `EventEntry`
values (wrapping an event storage entry) interleaved with
`FragmentBoundaryEntry` values. -/
inductive TimelineEntry
  | event (e : EventStorageEntry)
  | fragmentBoundary (b : FragmentBoundaryEntry)
deriving DecidableEq, Repr

/-- The `id` getter used by `_linkOverlapping`'s `entries.find(e => e.id ===
event.event_id)`: only event entries carry an event id. -/
def TimelineEntry.entryId : TimelineEntry → Option String
  | .event e => some e.event.event_id
  | .fragmentBoundary _ => none

/-- Modelled from the spec: a `RoomMember` value as produced by the two
constructors `_findMember` uses; only the display-name/avatar projection
matters to the engine. -/
structure RoomMember where
  roomId : String
  userId : String
  displayName : Option String := none
  avatarUrl : Option String := none
deriving DecidableEq, Repr

/-- Modelled from the spec: `RoomMember.fromMemberEvent(roomId, event)` —
member built from the event's `content` (authoritative). -/
def RoomMember.fromMemberEvent (roomId : String) (e : TimelineEvent) : RoomMember :=
  { roomId := roomId
    userId := e.state_key.getD ""
    displayName := e.content.displayname
    avatarUrl := e.content.avatar_url }

/-- Modelled from the spec: `RoomMember.fromReplacingMemberEvent(roomId,
event)` — member built from the event's `prev_content` (the state the
member event replaced). -/
def RoomMember.fromReplacingMemberEvent (roomId : String) (e : TimelineEvent) :
    RoomMember :=
  { roomId := roomId
    userId := e.state_key.getD ""
    displayName := e.prev_content.bind EventContent.displayname
    avatarUrl := e.prev_content.bind EventContent.avatar_url }

/-- Modelled from the spec: the read-write transaction over the
`timelineEvents` and `timelineFragments` object stores.  Only the two
stores the claims touch are modelled; rows are kept in insertion order. -/
structure Txn where
  events : List EventStorageEntry := []
  fragments : List Fragment := []
deriving DecidableEq, Repr

/-- Modelled from the spec: whether an event with this id is on disk for
the room. -/
def Txn.hasStoredEvent (txn : Txn) (roomId eventId : String) : Bool :=
  txn.events.any (fun se => decide (se.roomId = roomId ∧ se.event.event_id = eventId))

/-- Modelled from the spec: `timelineEvents.findFirstOccurringEventId` —
the first id of the given list that already exists on disk for the room
(the first event in the chunk already stored). -/
def Txn.findFirstOccurringEventId (txn : Txn) (roomId : String) :
    List String → Option String
  | [] => none
  | eventId :: rest =>
    if txn.hasStoredEvent roomId eventId then some eventId
    else txn.findFirstOccurringEventId roomId rest

/-- Modelled from the spec: `timelineEvents.getByEventId`. -/
def Txn.getByEventId (txn : Txn) (roomId eventId : String) :
    Option EventStorageEntry :=
  txn.events.find? (fun se => decide (se.roomId = roomId ∧ se.event.event_id = eventId))

/-- Modelled from the spec: `timelineEvents.insert` appends a row. -/
def Txn.insertEvent (txn : Txn) (se : EventStorageEntry) : Txn :=
  { txn with events := txn.events ++ [se] }

def Txn.eventsIn (txn : Txn) (roomId : String) (fragmentId : Nat) :
    List EventStorageEntry :=
  txn.events.filter (fun se => decide (se.roomId = roomId ∧ se.fragmentId = fragmentId))

/-- Modelled from the spec: `timelineEvents.firstEvents(roomId, fragId, 1)`
— the event with the smallest `eventIndex` in the fragment. -/
def Txn.firstEvent (txn : Txn) (roomId : String) (fragmentId : Nat) :
    Option EventStorageEntry :=
  (txn.eventsIn roomId fragmentId).foldl
    (fun acc se => match acc with
      | none => some se
      | some a => if se.eventIndex < a.eventIndex then some se else acc)
    none

/-- Modelled from the spec: `timelineEvents.lastEvents(roomId, fragId, 1)`
— the event with the largest `eventIndex` in the fragment. -/
def Txn.lastEvent (txn : Txn) (roomId : String) (fragmentId : Nat) :
    Option EventStorageEntry :=
  (txn.eventsIn roomId fragmentId).foldl
    (fun acc se => match acc with
      | none => some se
      | some a => if se.eventIndex > a.eventIndex then some se else acc)
    none

/-- Modelled from the spec: `timelineFragments.get(roomId, id)`. -/
def Txn.getFragment (txn : Txn) (roomId : String) (fragmentId : Nat) :
    Option Fragment :=
  txn.fragments.find? (fun f => decide (f.roomId = roomId ∧ f.id = fragmentId))

/-- Modelled from the spec: `timelineFragments.update` replaces the row
with the same key. -/
def Txn.updateFragment (txn : Txn) (roomId : String) (f : Fragment) : Txn :=
  { txn with fragments :=
      txn.fragments.map (fun g => if g.roomId = roomId ∧ g.id = f.id then f else g) }

/-- Modelled from the spec: `timelineFragments.add` appends a row. -/
def Txn.addFragment (txn : Txn) (f : Fragment) : Txn :=
  { txn with fragments := txn.fragments ++ [f] }

/-- Modelled from the spec: `timelineFragments.getMaxFragmentId`. -/
def Txn.getMaxFragmentId (txn : Txn) (roomId : String) : Nat :=
  (txn.fragments.filter (fun f => decide (f.roomId = roomId))).foldl
    (fun m f => max m f.id) 0

/-- The GapWriter; of its constructor arguments only `roomId` carries
state the embedded operations read (the fragment-id comparer and relation
writer are external collaborators). -/
structure GapWriter where
  roomId : String
deriving DecidableEq, Repr

/-- `isOurUser` from `_findMember`: a member event whose `state_key` is
the sender being resolved. -/
def isOurUser (userId : String) (e : TimelineEvent) : Bool :=
  decide (e.type = MEMBER_EVENT_TYPE ∧ e.state_key = some userId)

/-- One of `_findMember`'s two `for` loops: starting at integer index `i`,
stepping by `inc`, stop as soon as the index leaves `[0, events.length)`,
return the first event satisfying `isOurUser`.  The fuel bounds the
iteration count; `_findMember` passes `events.length + 1`, which the loop
can never exhaust while the index stays in bounds. -/
def forScan (userId : String) (events : List TimelineEvent) (inc : Int) :
    Nat → Int → Option TimelineEvent
  | 0, _ => none
  | fuel + 1, i =>
    if 0 ≤ i ∧ i < (events.length : Int) then
      match events[i.toNat]? with
      | some e =>
        if isOurUser userId e then some e
        else forScan userId events inc fuel (i + inc)
      | none => none
    else none

/-- `GapWriter._findMember`: resolve the member state applying to
`events[index].sender`.  First scan chronologically older chunk events
(`i = index + inc` onward), using `content`; then newer chunk events
starting at `index` itself (`i = index` stepping by `-inc`), using
`prev_content`; finally fall back to the chunk's `state` list. -/
def GapWriter.findMember (gw : GapWriter) (userId : String)
    (state : Option (List TimelineEvent)) (events : List TimelineEvent)
    (index : Nat) (direction : Direction) : Option RoomMember :=
  let inc : Int := if direction.isBackward then 1 else -1
  match forScan userId events inc (events.length + 1) ((index : Int) + inc) with
  | some e => some (RoomMember.fromMemberEvent gw.roomId e)
  | none =>
    match forScan userId events (-inc) (events.length + 1) (index : Int) with
    | some e => some (RoomMember.fromReplacingMemberEvent gw.roomId e)
    | none =>
      match state.bind (fun s => s.find? (isOurUser userId)) with
      | some e => some (RoomMember.fromMemberEvent gw.roomId e)
      | none => none

/-- The chronologically-older in-chunk indices as the claims describe
them: toward higher indices for Backward, lower indices for Forward.
Spec-side definition used to characterize `_findMember`'s first loop. -/
def olderIndices (direction : Direction) (index len : Nat) : List Nat :=
  match direction with
  | .backward => List.range' (index + 1) (len - (index + 1))
  | .forward => (List.range index).reverse

/-- The chronologically-newer in-chunk indices, starting at the event's
own index.  Spec-side definition used to characterize `_findMember`'s
second loop. -/
def newerIndices (direction : Direction) (index len : Nat) : List Nat :=
  match direction with
  | .backward => (List.range (index + 1)).reverse
  | .forward => List.range' index (len - index)

/-- First event at one of the given indices satisfying `isOurUser`,
scanning the index list in order.  Spec-side scan. -/
def scanForMember (userId : String) (events : List TimelineEvent) :
    List Nat → Option TimelineEvent
  | [] => none
  | i :: rest =>
    match events[i]? with
    | some e =>
      if isOurUser userId e then some e else scanForMember userId events rest
    | none => scanForMember userId events rest

/-- Spec-side restatement of sender resolution (§4.2.1 of the spec): older
chunk events first (`content` authoritative), then newer chunk events
(`prev_content`), then the chunk's `state` list, else nothing. -/
def findMemberSpec (gw : GapWriter) (userId : String)
    (state : Option (List TimelineEvent)) (events : List TimelineEvent)
    (index : Nat) (direction : Direction) : Option RoomMember :=
  match scanForMember userId events (olderIndices direction index events.length) with
  | some e => some (RoomMember.fromMemberEvent gw.roomId e)
  | none =>
    match scanForMember userId events (newerIndices direction index events.length) with
    | some e => some (RoomMember.fromReplacingMemberEvent gw.roomId e)
    | none =>
      match state.bind (fun s => s.find? (isOurUser userId)) with
      | some e => some (RoomMember.fromMemberEvent gw.roomId e)
      | none => none

/-- `chunk.findIndex(e => e.event_id === id)` as an `Option Nat`. -/
def findIndexOfEventId (eventId : String) : List TimelineEvent → Option Nat
  | [] => none
  | e :: rest =>
    if e.event_id = eventId then some 0
    else (findIndexOfEventId eventId rest).map (fun i => i + 1)

/-- The result shape of `_findOverlappingEventsFor`. -/
structure OverlapResult where
  nonOverlappingEvents : List TimelineEvent
  neighbourFragmentEntry : Option FragmentBoundaryEntry
deriving DecidableEq, Repr

/-- `GapWriter._findFragmentEdgeEvent`: first event of the fragment for
Backward, last event for Forward. -/
def GapWriter.findFragmentEdgeEvent (gw : GapWriter) (fragmentId : Nat)
    (direction : Direction) (txn : Txn) : Option EventStorageEntry :=
  if direction.isBackward then txn.firstEvent gw.roomId fragmentId
  else txn.lastEvent gw.roomId fragmentId

/-- `GapWriter._findExpectedOverlappingEventId`: the event id at the
opposite edge of the linked fragment. -/
def GapWriter.findExpectedOverlappingEventId (gw : GapWriter)
    (linkedFragmentId : Nat) (direction : Direction) (txn : Txn) : Option String :=
  (gw.findFragmentEdgeEvent linkedFragmentId direction.reverse txn).map
    (fun se => se.event.event_id)

/-- `GapWriter._findFragmentEdgeEventKey`: the key of the event at the
entry's edge, or the fragment's default key if the fragment is empty. -/
def GapWriter.findFragmentEdgeEventKey (gw : GapWriter)
    (fragmentEntry : FragmentBoundaryEntry) (txn : Txn) : EventKey :=
  match gw.findFragmentEdgeEvent fragmentEntry.fragmentId fragmentEntry.direction txn with
  | some se => { fragmentId := se.fragmentId, eventIndex := se.eventIndex }
  | none => EventKey.defaultFragmentKey fragmentEntry.fragmentId

/-- The neighbour-selection step inside `_findOverlappingEventsFor`'s
loop: if the duplicate is the expected overlapping event (or none was
expected) and no neighbour has been identified yet, look up the duplicate
event and its owning fragment and build the neighbour boundary entry. -/
def GapWriter.pickNeighbour (gw : GapWriter) (txn : Txn)
    (expectedOverlappingEventId : Option String) (duplicateEventId : String)
    (direction : Direction) (neighbour : Option FragmentBoundaryEntry) :
    Except String (Option FragmentBoundaryEntry) :=
  if expectedOverlappingEventId = none ∨
      expectedOverlappingEventId = some duplicateEventId then
    match neighbour with
    | some n => .ok (some n)
    | none =>
      match txn.getByEventId gw.roomId duplicateEventId with
      | none => .error "duplicate event not found in store"
      | some neighbourEvent =>
        match txn.getFragment gw.roomId neighbourEvent.fragmentId with
        | none => .error "fragment of neighbour event not found in store"
        | some neighbourFragment =>
          .ok (some { fragment := neighbourFragment,
                      isFragmentStart := direction.isForward })
  else .ok neighbour

/-- The `while (remainingEvents && remainingEvents.length)` loop of
`_findOverlappingEventsFor`.  Each iteration finds the first chunk event
already on disk, moves the preceding prefix into `nonOverlappingEvents`,
possibly identifies the neighbour fragment, and continues after the
duplicate.  Fuel is the length of the list at entry; every iteration drops
at least one element, so the fuel-exhaustion error is unreachable. -/
def GapWriter.findOverlappingLoop (gw : GapWriter) (txn : Txn)
    (expectedOverlappingEventId : Option String) (direction : Direction) :
    Nat → List TimelineEvent → List TimelineEvent →
    Option FragmentBoundaryEntry →
    Except String (List TimelineEvent × Option FragmentBoundaryEntry)
  | _, [], nonOverlappingEvents, neighbour => .ok (nonOverlappingEvents, neighbour)
  | fuel, remainingEvents@(_ :: _), nonOverlappingEvents, neighbour =>
    match txn.findFirstOccurringEventId gw.roomId
        (remainingEvents.map (fun e => e.event_id)) with
    | none => .ok (nonOverlappingEvents ++ remainingEvents, neighbour)
    | some duplicateEventId =>
      match findIndexOfEventId duplicateEventId remainingEvents with
      | none => .error "findFirstOccurringEventId returned an id that is not in the chunk"
      | some duplicateEventIndex =>
        match fuel with
        | 0 => .error "unreachable: overlap loop out of fuel"
        | fuel + 1 =>
          match gw.pickNeighbour txn expectedOverlappingEventId duplicateEventId
              direction neighbour with
          | .error msg => .error msg
          | .ok neighbour =>
            gw.findOverlappingLoop txn expectedOverlappingEventId direction fuel
              (remainingEvents.drop (duplicateEventIndex + 1))
              (nonOverlappingEvents ++ remainingEvents.take duplicateEventIndex)
              neighbour

/-- `GapWriter._findOverlappingEventsFor`. -/
def GapWriter.findOverlappingEventsFor (gw : GapWriter)
    (currentFragmentId : Option Nat) (linkedFragmentId : Option Nat)
    (direction : Direction) (events : List TimelineEvent) (txn : Txn) :
    Except String OverlapResult :=
  let expectedOverlappingEventId : Option String :=
    match linkedFragmentId with
    | some lid => gw.findExpectedOverlappingEventId lid direction txn
    | none => none
  match gw.findOverlappingLoop txn expectedOverlappingEventId direction
      events.length events [] none with
  | .error msg => .error msg
  | .ok (nonOverlappingEvents, neighbour) =>
    -- self-link guard: `neighbourFragmentEntry?.fragmentId === currentFragmentId`
    let neighbour :=
      match neighbour, currentFragmentId with
      | some n, some cid => if n.fragmentId = cid then none else some n
      | n, _ => n
    .ok { nonOverlappingEvents := nonOverlappingEvents,
          neighbourFragmentEntry := neighbour }

/-- `GapWriter._findOverlappingEvents`. -/
def GapWriter.findOverlappingEvents (gw : GapWriter)
    (fragmentEntry : FragmentBoundaryEntry) (events : List TimelineEvent)
    (txn : Txn) : Except String OverlapResult :=
  let linkedFragmentId :=
    if fragmentEntry.hasLinkedFragment then fragmentEntry.linkedFragmentId else none
  gw.findOverlappingEventsFor (some fragmentEntry.fragmentId) linkedFragmentId
    fragmentEntry.direction events txn

/-- Modelled from the spec: `createEventEntry(key, roomId, event)` from
`common.js` — a fresh storage entry at the given key. -/
def createEventEntry (key : EventKey) (roomId : String) (event : TimelineEvent) :
    EventStorageEntry :=
  { roomId := roomId, fragmentId := key.fragmentId, eventIndex := key.eventIndex,
    event := event }

/-- Modelled from the spec: `directionalAppend` from `common.js` —
push-back for Forward, push-front for Backward. -/
def directionalAppend (entries : List TimelineEntry) (value : TimelineEntry)
    (direction : Direction) : List TimelineEntry :=
  if direction.isForward then entries ++ [value] else value :: entries

/-- The per-event body of `_storeEvents`: build the storage entry and
stamp the resolved member's display name and avatar on it, if any.  The
external relation writer (out of scope) leaves the entry unchanged and
returns no updated relation targets. -/
def GapWriter.buildEventEntry (gw : GapWriter) (allEvents : List TimelineEvent)
    (direction : Direction) (state : Option (List TimelineEvent)) (index : Nat)
    (key : EventKey) (event : TimelineEvent) : EventStorageEntry :=
  let entry := createEventEntry key gw.roomId event
  match gw.findMember event.sender state allEvents index direction with
  | some member =>
    { entry with displayName := member.displayName, avatarUrl := member.avatarUrl }
  | none => entry

/-- The loop of `_storeEvents`: iterate `i` over the chunk (the list
parameter is `allEvents.drop i`), advance the running key, insert the
built entry and append the event entry directionally. -/
def GapWriter.storeEventsLoop (gw : GapWriter) (allEvents : List TimelineEvent)
    (direction : Direction) (state : Option (List TimelineEvent)) :
    List TimelineEvent → Nat → EventKey → List TimelineEntry → Txn →
    List TimelineEntry × Txn
  | [], _, _, entries, txn => (entries, txn)
  | event :: rest, index, key, entries, txn =>
    let key := key.nextKeyForDirection direction
    let eventStorageEntry := gw.buildEventEntry allEvents direction state index key event
    let txn := txn.insertEvent eventStorageEntry
    let entries := directionalAppend entries (.event eventStorageEntry) direction
    gw.storeEventsLoop allEvents direction state rest (index + 1) key entries txn

/-- `GapWriter._storeEvents`: store the events at successive keys after
`startKey`; returns `(entries, updatedEntries, txn)`.  The relation
writer being an external collaborator that is modelled as returning no
updated targets, `updatedEntries` is always empty. -/
def GapWriter.storeEvents (gw : GapWriter) (events : List TimelineEvent)
    (startKey : EventKey) (direction : Direction)
    (state : Option (List TimelineEvent)) (txn : Txn) :
    List TimelineEntry × List TimelineEntry × Txn :=
  let (entries, txn) := gw.storeEventsLoop events direction state events 0 startKey [] txn
  (entries, [], txn)

/-- The result of `_updateFragments`: the (mutated) entries list, the
fragments that must be handed to the fragment-id comparer, and the
transaction after the fragment updates. -/
structure UpdateFragmentsResult where
  entries : List TimelineEntry
  changedFragments : List Fragment
  txn : Txn
deriving DecidableEq, Repr

/-- `GapWriter._updateFragments`.  With a neighbour entry: refuse to
overwrite an existing conflicting link on either side, link the two
entries to each other, clear both joined-side tokens, persist and record
both fragments.  Without: set the side's token to `end`. In the source the
entries are appended before mutation but alias the mutated objects; here
the final values are appended at the same positions. -/
def GapWriter.updateFragments (gw : GapWriter)
    (fragmentEntry : FragmentBoundaryEntry)
    (neighbourFragmentEntry : Option FragmentBoundaryEntry)
    (endToken : Option String) (entries : List TimelineEntry) (txn : Txn) :
    Except String UpdateFragmentsResult :=
  let direction := fragmentEntry.direction
  match neighbourFragmentEntry with
  | some neighbour =>
    if !fragmentEntry.hasLinkedFragment ∨
        fragmentEntry.linkedFragmentId = some neighbour.fragmentId then
      if !neighbour.hasLinkedFragment ∨
          neighbour.linkedFragmentId = some fragmentEntry.fragmentId then
        let fragmentEntry :=
          if !fragmentEntry.hasLinkedFragment then
            fragmentEntry.setLinkedFragmentId (some neighbour.fragmentId)
          else fragmentEntry
        let neighbour :=
          if !neighbour.hasLinkedFragment then
            neighbour.setLinkedFragmentId (some fragmentEntry.fragmentId)
          else neighbour
        let neighbour := neighbour.setToken none
        let fragmentEntry := fragmentEntry.setToken none
        let txn := txn.updateFragment gw.roomId neighbour.fragment
        let entries := directionalAppend entries (.fragmentBoundary fragmentEntry) direction
        let entries := directionalAppend entries (.fragmentBoundary neighbour) direction
        let txn := txn.updateFragment gw.roomId fragmentEntry.fragment
        .ok { entries := entries,
              changedFragments := [fragmentEntry.fragment, neighbour.fragment],
              txn := txn }
      else .error "Prevented changing fragment link of neighbour entry"
    else .error "Prevented changing fragment link of fragment entry"
  | none =>
    let fragmentEntry := fragmentEntry.setToken endToken
    let entries := directionalAppend entries (.fragmentBoundary fragmentEntry) direction
    let txn := txn.updateFragment gw.roomId fragmentEntry.fragment
    .ok { entries := entries, changedFragments := [], txn := txn }

/-- The result shape returned by `writeFragmentFill`/`writeContext`. -/
structure WriteResult where
  entries : List TimelineEntry
  updatedEntries : List TimelineEntry
  fragments : List Fragment
  contextEvent : Option TimelineEntry := none
deriving DecidableEq, Repr

/-- `GapWriter._linkOverlapping`: write the combined surrounding events in
the main side's direction from its neighbour fragment's edge, link the two
neighbour entries, and locate the written context event. -/
def GapWriter.linkOverlapping (gw : GapWriter) (mainOverlap otherOverlap : OverlapResult)
    (event : TimelineEvent) (token : Option String)
    (state : Option (List TimelineEvent)) (txn : Txn) :
    Except String (WriteResult × Txn) :=
  match mainOverlap.neighbourFragmentEntry with
  | none => .error "linkOverlapping requires a main neighbour fragment entry"
  | some fragmentEntry =>
    let otherEntry := otherOverlap.neighbourFragmentEntry
    let allEvents := mainOverlap.nonOverlappingEvents.reverse ++ [event] ++
      otherOverlap.nonOverlappingEvents
    let lastKey := gw.findFragmentEdgeEventKey fragmentEntry txn
    let (entries, updatedEntries, txn) :=
      gw.storeEvents allEvents lastKey fragmentEntry.direction state txn
    match gw.updateFragments fragmentEntry otherEntry token entries txn with
    | .error msg => .error msg
    | .ok r =>
      let contextEvent := r.entries.find? (fun e => e.entryId = some event.event_id)
      .ok ({ entries := r.entries, updatedEntries := updatedEntries,
             fragments := r.changedFragments, contextEvent := contextEvent }, r.txn)

/-- `GapWriter._createNewFragment`. -/
def GapWriter.createNewFragment (gw : GapWriter) (txn : Txn) : Fragment × Txn :=
  let maxFragmentKey := txn.getMaxFragmentId gw.roomId
  let newFragment : Fragment :=
    { roomId := gw.roomId, id := maxFragmentKey + 1 }
  (newFragment, txn.addFragment newFragment)

/-- A `/context` response: the centre event, the reverse-chronological
events before it, the chronological events after it, the two tokens and
the optional state list. -/
structure ContextResponse where
  event : TimelineEvent
  events_before : List TimelineEvent
  events_after : List TimelineEvent
  start : Option String
  end_ : Option String
  state : Option (List TimelineEvent) := none
deriving DecidableEq, Repr

/-- JavaScript falsiness of a token value (`!start`): absent or empty. -/
def isFalsyToken : Option String → Bool
  | none => true
  | some s => decide (s = "")

/-- `GapWriter.writeContext`. -/
def GapWriter.writeContext (gw : GapWriter) (response : ContextResponse) (txn : Txn) :
    Except String (WriteResult × Txn) :=
  if isFalsyToken response.start ∨ isFalsyToken response.end_ then
    .error "Context call did not receive start and end tokens"
  else
    match txn.getByEventId gw.roomId response.event.event_id with
    | some eventEntry =>
      -- If we have the current event, early return.
      .ok ({ entries := [], updatedEntries := [], fragments := [],
             contextEvent := some (.event eventEntry) }, txn)
    | none =>
      match gw.findOverlappingEventsFor none none .backward response.events_before txn with
      | .error msg => .error msg
      | .ok overlapUp =>
        match gw.findOverlappingEventsFor none none .forward response.events_after txn with
        | .error msg => .error msg
        | .ok overlapDown =>
          if overlapUp.neighbourFragmentEntry.isSome then
            gw.linkOverlapping overlapUp overlapDown response.event response.end_
              response.state txn
          else if overlapDown.neighbourFragmentEntry.isSome then
            gw.linkOverlapping overlapDown overlapUp response.event response.start
              response.state txn
          else
            let (newFragment, txn) := gw.createNewFragment txn
            let newFragment :=
              { newFragment with nextToken := response.end_,
                                 previousToken := response.start }
            let newEntry := FragmentBoundaryEntry.endBoundary newFragment
            let overlapUp :=
              { overlapUp with neighbourFragmentEntry := some newEntry }
            gw.linkOverlapping overlapUp overlapDown response.event response.end_
              response.state txn

/-- A `/messages` response: the chunk (reverse-chronological when filling
backwards), the `start` token the request was made with, the continuation
token `end` (a string in any valid response; `typeof end === "string"` is
validated), and the optional state list. -/
structure MessagesResponse where
  chunk : List TimelineEvent
  start : String
  end_ : Option String
  state : Option (List TimelineEvent) := none
deriving DecidableEq, Repr

/-- `GapWriter.writeFragmentFill`. -/
def GapWriter.writeFragmentFill (gw : GapWriter)
    (fragmentEntry : FragmentBoundaryEntry) (response : MessagesResponse)
    (txn : Txn) : Except String (WriteResult × Txn) :=
  let fragmentId := fragmentEntry.fragmentId
  let direction := fragmentEntry.direction
  match response.end_ with
  | none => .error "Invalid end token in response"
  | some endToken =>
    -- make sure we have the latest fragment from the store
    match txn.getFragment gw.roomId fragmentId with
    | none => .error "Unknown fragment"
    | some fragment =>
      let fragmentEntry := fragmentEntry.withUpdatedFragment fragment
      if fragmentEntry.token ≠ some response.start then
        .error "start is not equal to prev_batch or next_batch"
      else if response.chunk.isEmpty then
        -- begin (or end) of timeline reached
        let fragmentEntry := fragmentEntry.setEdgeReached true
        let txn := txn.updateFragment gw.roomId fragmentEntry.fragment
        .ok ({ entries := [.fragmentBoundary fragmentEntry], updatedEntries := [],
               fragments := [] }, txn)
      else
        let lastKey := gw.findFragmentEdgeEventKey fragmentEntry txn
        match gw.findOverlappingEvents fragmentEntry response.chunk txn with
        | .error msg => .error msg
        | .ok overlap =>
          -- known-bug compensation (#160): fully-overlapping chunk without
          -- an identifiable neighbour clears the token
          let endToken : Option String :=
            if overlap.neighbourFragmentEntry.isNone ∧
                overlap.nonOverlappingEvents.isEmpty then none
            else some endToken
          let (entries, updatedEntries, txn) :=
            gw.storeEvents overlap.nonOverlappingEvents lastKey direction
              response.state txn
          match gw.updateFragments fragmentEntry overlap.neighbourFragmentEntry
              endToken entries txn with
          | .error msg => .error msg
          | .ok r =>
            .ok ({ entries := r.entries, updatedEntries := updatedEntries,
                   fragments := r.changedFragments }, r.txn)

/-! ## Invariant helpers and side projections -/

/-- The side projection of a fragment's pagination token: the previous
token for the Backward side, the next token for the Forward side. -/
def Fragment.sideToken (f : Fragment) (dir : Direction) : Option String :=
  if dir.isBackward then f.previousToken else f.nextToken

/-- The side projection of a fragment's link. -/
def Fragment.sideLinkedId (f : Fragment) (dir : Direction) : Option Nat :=
  if dir.isBackward then f.previousId else f.nextId

/-- No fragment links to itself on either side. -/
def Txn.selfLinkFree (txn : Txn) : Bool :=
  txn.fragments.all (fun f => decide (f.previousId ≠ some f.id ∧ f.nextId ≠ some f.id))

/-- One side of the token/gap invariant claimed by the spec: the token is
non-null iff the side is an unresolved gap, i.e. null iff the side is
linked or the edge of history is reached. -/
def tokenSideOk (token : Option String) (linkedId : Option Nat)
    (edgeReached : Bool) : Bool :=
  decide ((token ≠ none) ↔ ¬(linkedId ≠ none ∨ edgeReached = true))

/-- The claimed token/gap invariant on both sides of a fragment. -/
def Fragment.tokenInvariant (f : Fragment) : Bool :=
  tokenSideOk f.previousToken f.previousId f.edgeReached &&
    tokenSideOk f.nextToken f.nextId f.edgeReached

def Txn.tokenInvariant (txn : Txn) : Bool :=
  txn.fragments.all Fragment.tokenInvariant

/-- Did a GapWriter call succeed? -/
def writeOutcomeOk : Except String (WriteResult × Txn) → Bool
  | .ok _ => true
  | .error _ => false

/-- Self-link freedom of the state a successful call produced (errors
leave storage untouched, so they count as preserving). -/
def writeOutcomeSelfLinkFree : Except String (WriteResult × Txn) → Bool
  | .ok (_, txn) => txn.selfLinkFree
  | .error _ => true

/-- Token/gap invariant of the state a successful call produced. -/
def writeOutcomeTokenInvariant : Except String (WriteResult × Txn) → Bool
  | .ok (_, txn) => txn.tokenInvariant
  | .error _ => true

/-- Running the same `/messages` response through `writeFragmentFill`
twice in sequence: the second call runs on the state the first call
produced (a first-call error propagates). -/
def secondFill (gw : GapWriter) (fragmentEntry : FragmentBoundaryEntry)
    (response : MessagesResponse) (txn : Txn) : Except String (WriteResult × Txn) :=
  match gw.writeFragmentFill fragmentEntry response txn with
  | .ok (_, txn1) => gw.writeFragmentFill fragmentEntry response txn1
  | .error msg => .error msg

/-! ## Concrete inputs used by the witnesses and counterexamples -/

def exGw : GapWriter := { roomId := "r" }

def evA : TimelineEvent := { event_id := "a" }
def evB : TimelineEvent := { event_id := "b" }
def evE : TimelineEvent := { event_id := "e" }

/-- C1 failing input: fragment 1 holds events `a` and `b`; a `/context`
response for the missing event `e` has `a` before it and `b` after it, so
both overlap searches identify fragment 1 as the neighbour. -/
def c1txn : Txn :=
  { events := [ { roomId := "r", fragmentId := 1, eventIndex := 2, event := evA },
                { roomId := "r", fragmentId := 1, eventIndex := 3, event := evB } ],
    fragments := [ { roomId := "r", id := 1, previousToken := some "p",
                     nextToken := some "n" } ] }

def c1resp : ContextResponse :=
  { event := evE, events_before := [evA], events_after := [evB],
    start := some "s", end_ := some "t" }

/-- C2 counterexample input: a doubly-gapped fragment (both tokens set, no
links, no edge) receiving an empty backfill chunk on its previous side. -/
def c2frag : Fragment :=
  { roomId := "r", id := 1, previousToken := some "t1", nextToken := some "t2" }

def c2txn : Txn := { fragments := [c2frag] }

def c2fe : FragmentBoundaryEntry := FragmentBoundaryEntry.startBoundary c2frag

def c2resp : MessagesResponse := { chunk := [], start := "t1", end_ := some "x" }

/-- Inputs for the link-success path of `_updateFragments`: fragment 2's
previous side is joined to fragment 1's next side. -/
def c4frag1 : Fragment := { roomId := "r", id := 1, nextToken := some "nt" }
def c4frag2 : Fragment := { roomId := "r", id := 2, previousToken := some "pt" }
def c4txn : Txn := { fragments := [c4frag1, c4frag2] }
def c4fe : FragmentBoundaryEntry := FragmentBoundaryEntry.startBoundary c4frag2
def c4n : FragmentBoundaryEntry := FragmentBoundaryEntry.endBoundary c4frag1

/-- A fragment entry whose previous side is already linked to fragment 3,
conflicting with a neighbour whose id is 1. -/
def c4feConflict : FragmentBoundaryEntry :=
  FragmentBoundaryEntry.startBoundary { c4frag2 with previousId := some 3 }

/-- A neighbour whose next side is already linked to fragment 9,
conflicting with a fragment entry whose id is 2. -/
def c4nConflict : FragmentBoundaryEntry :=
  FragmentBoundaryEntry.endBoundary { c4frag1 with nextId := some 9 }

def evE1 : TimelineEvent := { event_id := "e1" }

/-- C5/C3 input: one gapped fragment, a backfill response with one fresh
event; the first fill succeeds and moves the token from `t1` to `t2`. -/
def c5frag : Fragment := { roomId := "r", id := 1, previousToken := some "t1" }
def c5txn : Txn := { fragments := [c5frag] }
def c5fe : FragmentBoundaryEntry := FragmentBoundaryEntry.startBoundary c5frag
def c5resp : MessagesResponse := { chunk := [evE1], start := "t1", end_ := some "t2" }

/-- C5 witness input for the `writeContext` half: the centre event is
already stored, so the call early-returns and is trivially repeatable. -/
def c5ctxEntry : EventStorageEntry :=
  { roomId := "r", fragmentId := 1, eventIndex := 2, event := evE }
def c5ctxTxn : Txn :=
  { events := [c5ctxEntry], fragments := [ { roomId := "r", id := 1 } ] }
def c5ctxResp : ContextResponse :=
  { event := evE, events_before := [], events_after := [],
    start := some "s", end_ := some "t" }

/-- C6 witness input: event `a` is stored in fragment 1; the chunk
`[a, b]` therefore splits into the duplicate `a` and the fresh `b`. -/
def c6txn : Txn :=
  { events := [ { roomId := "r", fragmentId := 1, eventIndex := 5, event := evA } ],
    fragments := [ { roomId := "r", id := 1 } ] }

/-- C8/C10 member events: `mА` joins, `mB` changes the display name. -/
def evMemberJoin : TimelineEvent :=
  { event_id := "m1", type := MEMBER_EVENT_TYPE, state_key := some "@x:hs",
    sender := "@x:hs", content := { displayname := some "X" } }

def evMemberRename : TimelineEvent :=
  { event_id := "m2", type := MEMBER_EVENT_TYPE, state_key := some "@x:hs",
    sender := "@x:hs", content := { displayname := some "Y" },
    prev_content := some { displayname := some "X" } }

def evFromX : TimelineEvent := { event_id := "t1", sender := "@x:hs" }

/-- C8 witness chunk (reverse-chronological, Backward): a message from
`@x:hs` at index 0 with the member event at index 1 (older). -/
def c8events : List TimelineEvent := [evFromX, evMemberJoin]

/-- C10 witness chunk: the member event itself at index 0, nothing older
in the chunk matches. -/
def c10events : List TimelineEvent := [evMemberRename, evFromX]

/-- C9 witness input: the centre event is already stored. -/
def c9entry : EventStorageEntry :=
  { roomId := "r", fragmentId := 4, eventIndex := 7, event := evE }
def c9txn : Txn := { events := [c9entry], fragments := [ { roomId := "r", id := 4 } ] }
def c9resp : ContextResponse :=
  { event := evE, events_before := [evA], events_after := [evB],
    start := some "s", end_ := some "t" }

/-- The result `_updateFragments` produces on the `c4` link inputs. -/
def c4linkResult : UpdateFragmentsResult :=
  { entries := [ .fragmentBoundary ⟨{ roomId := "r", id := 1, nextId := some 2 }, false⟩,
                 .fragmentBoundary ⟨{ roomId := "r", id := 2, previousId := some 1 }, true⟩ ],
    changedFragments := [ { roomId := "r", id := 2, previousId := some 1 },
                          { roomId := "r", id := 1, nextId := some 2 } ],
    txn := { events := [],
             fragments := [ { roomId := "r", id := 1, nextId := some 2 },
                            { roomId := "r", id := 2, previousId := some 1 } ] } }

/-- The result the first `writeFragmentFill` run on the `c5` inputs produces. -/
def c5fillResult : WriteResult :=
  { entries := [ .fragmentBoundary ⟨{ roomId := "r", id := 1, previousToken := some "t2" }, true⟩,
                 .event { roomId := "r", fragmentId := 1, eventIndex := 2147483646,
                          event := evE1 } ],
    updatedEntries := [], fragments := [], contextEvent := none }

/-- The transaction state after the first `writeFragmentFill` run on the
`c5` inputs: the event is stored and the token moved to `t2`. -/
def c5fillTxn : Txn :=
  { events := [ { roomId := "r", fragmentId := 1, eventIndex := 2147483646,
                  event := evE1 } ],
    fragments := [ { roomId := "r", id := 1, previousToken := some "t2" } ] }

def c5fillFrag : Fragment := { roomId := "r", id := 1, previousToken := some "t2" }

/-- A response whose `start` does not match the stored token. -/
def c3badResp : MessagesResponse :=
  { chunk := [evE1], start := "bad", end_ := some "t2" }

/-- The early-return result of `writeContext` on the `c5ctx` inputs. -/
def c5ctxResult : WriteResult :=
  { entries := [], updatedEntries := [], fragments := [],
    contextEvent := some (.event c5ctxEntry) }

/-- The overlap result on the `c6` inputs. -/
def c6res : OverlapResult :=
  { nonOverlappingEvents := [evB],
    neighbourFragmentEntry := some ⟨{ roomId := "r", id := 1 }, false⟩ }

def c8key : EventKey := EventKey.defaultFragmentKey 1

def c2fragAfter : Fragment :=
  { roomId := "r", id := 1, previousToken := some "t1", nextToken := some "t2",
    edgeReached := true }

def c2fillOut : WriteResult × Txn :=
  ({ entries := [.fragmentBoundary ⟨c2fragAfter, true⟩],
     updatedEntries := [], fragments := [], contextEvent := none },
   { events := [], fragments := [c2fragAfter] })


/-! ## Lemmas about boundary entries -/

theorem sideLinkedId_direction_eq (b : FragmentBoundaryEntry) :
    b.fragment.sideLinkedId b.direction = b.linkedFragmentId := by
  cases hb : b.isFragmentStart <;>
    simp [Fragment.sideLinkedId, FragmentBoundaryEntry.direction,
      FragmentBoundaryEntry.linkedFragmentId, Direction.isBackward, hb]

theorem sideToken_direction_eq (b : FragmentBoundaryEntry) :
    b.fragment.sideToken b.direction = b.token := by
  cases hb : b.isFragmentStart <;>
    simp [Fragment.sideToken, FragmentBoundaryEntry.direction,
      FragmentBoundaryEntry.token, Direction.isBackward, hb]

theorem setToken_direction (b : FragmentBoundaryEntry) (t : Option String) :
    (b.setToken t).direction = b.direction := by
  cases hb : b.isFragmentStart <;>
    simp [FragmentBoundaryEntry.setToken, FragmentBoundaryEntry.direction, hb]

theorem setToken_token (b : FragmentBoundaryEntry) (t : Option String) :
    (b.setToken t).token = t := by
  cases hb : b.isFragmentStart <;>
    simp [FragmentBoundaryEntry.setToken, FragmentBoundaryEntry.token, hb]

theorem setToken_fragmentId (b : FragmentBoundaryEntry) (t : Option String) :
    (b.setToken t).fragmentId = b.fragmentId := by
  cases hb : b.isFragmentStart <;>
    simp [FragmentBoundaryEntry.setToken, FragmentBoundaryEntry.fragmentId, hb]

theorem setToken_linkedFragmentId (b : FragmentBoundaryEntry) (t : Option String) :
    (b.setToken t).linkedFragmentId = b.linkedFragmentId := by
  cases hb : b.isFragmentStart <;>
    simp [FragmentBoundaryEntry.setToken, FragmentBoundaryEntry.linkedFragmentId, hb]

theorem setLinkedFragmentId_direction (b : FragmentBoundaryEntry) (i : Option Nat) :
    (b.setLinkedFragmentId i).direction = b.direction := by
  cases hb : b.isFragmentStart <;>
    simp [FragmentBoundaryEntry.setLinkedFragmentId, FragmentBoundaryEntry.direction, hb]

theorem setLinkedFragmentId_linkedFragmentId (b : FragmentBoundaryEntry)
    (i : Option Nat) : (b.setLinkedFragmentId i).linkedFragmentId = i := by
  cases hb : b.isFragmentStart <;>
    simp [FragmentBoundaryEntry.setLinkedFragmentId,
      FragmentBoundaryEntry.linkedFragmentId, hb]

theorem setLinkedFragmentId_token (b : FragmentBoundaryEntry) (i : Option Nat) :
    (b.setLinkedFragmentId i).token = b.token := by
  cases hb : b.isFragmentStart <;>
    simp [FragmentBoundaryEntry.setLinkedFragmentId, FragmentBoundaryEntry.token, hb]

theorem setLinkedFragmentId_fragmentId (b : FragmentBoundaryEntry) (i : Option Nat) :
    (b.setLinkedFragmentId i).fragmentId = b.fragmentId := by
  cases hb : b.isFragmentStart <;>
    simp [FragmentBoundaryEntry.setLinkedFragmentId, FragmentBoundaryEntry.fragmentId, hb]


theorem updateFragments_link_ok (gw : GapWriter) (fe n : FragmentBoundaryEntry)
    (endToken : Option String) (entries : List TimelineEntry) (txn : Txn)
    (r : UpdateFragmentsResult)
    (h : gw.updateFragments fe (some n) endToken entries txn = .ok r) :
    ∃ ff nf, r.changedFragments = [ff, nf] ∧
      ff.sideLinkedId fe.direction = some n.fragmentId ∧
      nf.sideLinkedId n.direction = some fe.fragmentId ∧
      ff.sideToken fe.direction = none ∧
      nf.sideToken n.direction = none := by
  unfold GapWriter.updateFragments at h
  dsimp only at h
  split at h
  case isTrue hfe =>
    split at h
    case isTrue hn =>
      injection h with h
      subst h
      refine ⟨_, _, rfl, ?_, ?_, ?_, ?_⟩ <;>
        rcases hfe with hfe | hfe <;> rcases hn with hn | hn <;>
        cases hs : fe.isFragmentStart <;> cases hs2 : n.isFragmentStart <;>
        simp_all [FragmentBoundaryEntry.setToken, FragmentBoundaryEntry.setLinkedFragmentId,
          FragmentBoundaryEntry.direction, FragmentBoundaryEntry.linkedFragmentId,
          FragmentBoundaryEntry.hasLinkedFragment, FragmentBoundaryEntry.fragmentId,
          Fragment.sideLinkedId, Fragment.sideToken, Direction.isBackward]
    case isFalse => simp at h
  case isFalse => simp at h

theorem updateFragments_conflict_fe (gw : GapWriter) (fe n : FragmentBoundaryEntry)
    (endToken : Option String) (entries : List TimelineEntry) (txn : Txn) (x : Nat)
    (hx : fe.linkedFragmentId = some x) (hne : x ≠ n.fragmentId) :
    gw.updateFragments fe (some n) endToken entries txn =
      .error "Prevented changing fragment link of fragment entry" := by
  unfold GapWriter.updateFragments
  dsimp only
  rw [if_neg]
  rintro (h1 | h1)
  · simp [FragmentBoundaryEntry.hasLinkedFragment, hx] at h1
  · rw [hx] at h1
    exact hne (Option.some.inj h1)

theorem updateFragments_conflict_n (gw : GapWriter) (fe n : FragmentBoundaryEntry)
    (endToken : Option String) (entries : List TimelineEntry) (txn : Txn) (y : Nat)
    (hfe : fe.linkedFragmentId = none ∨ fe.linkedFragmentId = some n.fragmentId)
    (hy : n.linkedFragmentId = some y) (hne : y ≠ fe.fragmentId) :
    gw.updateFragments fe (some n) endToken entries txn =
      .error "Prevented changing fragment link of neighbour entry" := by
  unfold GapWriter.updateFragments
  dsimp only
  rw [if_pos, if_neg]
  · rintro (h1 | h1)
    · simp [FragmentBoundaryEntry.hasLinkedFragment, hy] at h1
    · rw [hy] at h1
      exact hne (Option.some.inj h1)
  · rcases hfe with h1 | h1
    · exact Or.inl (by simp [FragmentBoundaryEntry.hasLinkedFragment, h1])
    · exact Or.inr h1

theorem updateFragments_no_neighbour (gw : GapWriter) (fe : FragmentBoundaryEntry)
    (endToken : Option String) (entries : List TimelineEntry) (txn : Txn) :
    gw.updateFragments fe none endToken entries txn =
      .ok { entries := directionalAppend entries
              (.fragmentBoundary (fe.setToken endToken)) fe.direction,
            changedFragments := [],
            txn := txn.updateFragment gw.roomId (fe.setToken endToken).fragment } := rfl

theorem updateFragments_ok_events (gw : GapWriter) (fe : FragmentBoundaryEntry)
    (n : Option FragmentBoundaryEntry) (endToken : Option String)
    (entries : List TimelineEntry) (txn : Txn) (r : UpdateFragmentsResult)
    (h : gw.updateFragments fe n endToken entries txn = .ok r) :
    r.txn.events = txn.events := by
  unfold GapWriter.updateFragments at h
  dsimp only at h
  cases n with
  | none =>
    injection h with h
    subst h
    rfl
  | some nb =>
    dsimp only at h
    split at h
    · split at h
      · injection h with h
        subst h
        rfl
      · simp at h
    · simp at h

theorem setEdgeReached_token (b : FragmentBoundaryEntry) (r : Bool) :
    (b.setEdgeReached r).token = b.token := by
  cases hb : b.isFragmentStart <;>
    simp [FragmentBoundaryEntry.setEdgeReached, FragmentBoundaryEntry.token, hb]

theorem fill_end_none (gw : GapWriter) (fe : FragmentBoundaryEntry)
    (resp : MessagesResponse) (txn : Txn) (hend : resp.end_ = none) :
    gw.writeFragmentFill fe resp txn = .error "Invalid end token in response" := by
  unfold GapWriter.writeFragmentFill
  rw [hend]

theorem fill_ok_token (gw : GapWriter) (fe : FragmentBoundaryEntry)
    (resp : MessagesResponse) (txn : Txn) (out : WriteResult × Txn)
    (h : gw.writeFragmentFill fe resp txn = .ok out) :
    ∃ f, txn.getFragment gw.roomId fe.fragmentId = some f ∧
      (fe.withUpdatedFragment f).token = some resp.start := by
  unfold GapWriter.writeFragmentFill at h
  cases hend : resp.end_ with
  | none => rw [hend] at h; simp at h
  | some e0 =>
    rw [hend] at h
    dsimp only at h
    cases hf : txn.getFragment gw.roomId fe.fragmentId with
    | none => rw [hf] at h; simp at h
    | some f =>
      rw [hf] at h
      dsimp only at h
      refine ⟨f, rfl, ?_⟩
      split at h
      · simp at h
      · next h1 => exact not_ne_iff.mp h1

theorem fill_stale_token_error (gw : GapWriter) (fe : FragmentBoundaryEntry)
    (resp : MessagesResponse) (txn : Txn) (f : Fragment)
    (hf : txn.getFragment gw.roomId fe.fragmentId = some f)
    (hne : (fe.withUpdatedFragment f).token ≠ some resp.start) :
    ∃ msg, gw.writeFragmentFill fe resp txn = .error msg := by
  unfold GapWriter.writeFragmentFill
  cases hend : resp.end_ with
  | none => exact ⟨_, rfl⟩
  | some e0 =>
    dsimp only
    rw [hf]
    dsimp only
    rw [if_pos hne]
    exact ⟨_, rfl⟩

theorem fill_empty_chunk (gw : GapWriter) (fe : FragmentBoundaryEntry)
    (resp : MessagesResponse) (txn : Txn) (f : Fragment) (e0 : String)
    (hchunk : resp.chunk = []) (hend : resp.end_ = some e0)
    (hf : txn.getFragment gw.roomId fe.fragmentId = some f)
    (htok : (fe.withUpdatedFragment f).token = some resp.start) :
    gw.writeFragmentFill fe resp txn =
      .ok ({ entries := [.fragmentBoundary
                ((fe.withUpdatedFragment f).setEdgeReached true)],
             updatedEntries := [], fragments := [], contextEvent := none },
           txn.updateFragment gw.roomId
             (((fe.withUpdatedFragment f).setEdgeReached true).fragment)) := by
  unfold GapWriter.writeFragmentFill
  rw [hend]
  dsimp only
  rw [hf]
  dsimp only
  rw [if_neg (by simp [htok]), if_pos (by simp [hchunk])]

/-! ## Lemmas about the overlap detector -/

theorem ffo_none_all (txn : Txn) (roomId : String) (l : List TimelineEvent)
    (h : txn.findFirstOccurringEventId roomId (l.map (fun e => e.event_id)) = none) :
    ∀ e ∈ l, txn.hasStoredEvent roomId e.event_id = false := by
  induction l with
  | nil => intro e he; cases he
  | cons x rest ih =>
    rw [List.map_cons] at h
    unfold Txn.findFirstOccurringEventId at h
    split at h
    · simp at h
    · next hx =>
      intro e he
      rcases List.mem_cons.mp he with rfl | he2
      · simpa using hx
      · exact ih h e he2

theorem ffo_some_stored (txn : Txn) (roomId : String) (ids : List String) (d : String)
    (h : txn.findFirstOccurringEventId roomId ids = some d) :
    txn.hasStoredEvent roomId d = true := by
  induction ids with
  | nil => simp [Txn.findFirstOccurringEventId] at h
  | cons x rest ih =>
    unfold Txn.findFirstOccurringEventId at h
    split at h
    · next hx =>
      injection h with h
      subst h
      exact hx
    · exact ih h

theorem ffo_filter_split (txn : Txn) (roomId : String) (l : List TimelineEvent)
    (d : String) (i : Nat)
    (hffo : txn.findFirstOccurringEventId roomId (l.map (fun e => e.event_id)) = some d)
    (hidx : findIndexOfEventId d l = some i) :
    l.filter (fun e => !txn.hasStoredEvent roomId e.event_id) =
      l.take i ++ (l.drop (i + 1)).filter
        (fun e => !txn.hasStoredEvent roomId e.event_id) := by
  induction l generalizing i with
  | nil => simp [Txn.findFirstOccurringEventId] at hffo
  | cons x rest ih =>
    rw [List.map_cons] at hffo
    unfold Txn.findFirstOccurringEventId at hffo
    split at hffo
    · next hx =>
      injection hffo with hffo
      unfold findIndexOfEventId at hidx
      rw [if_pos hffo] at hidx
      injection hidx with hidx
      subst hidx
      subst hffo
      simp [hx]
    · next hx =>
      have hstored := ffo_some_stored txn roomId _ _ hffo
      have hxd : x.event_id ≠ d := by
        intro he
        rw [he] at hx
        exact hx hstored
      unfold findIndexOfEventId at hidx
      rw [if_neg hxd] at hidx
      rcases Option.map_eq_some'.mp hidx with ⟨j, hj, hij⟩
      subst hij
      have hxs : (!txn.hasStoredEvent roomId x.event_id) = true := by simpa using hx
      simp only [List.take_succ_cons, List.drop_succ_cons, List.filter_cons]
      rw [if_pos hxs, ih j hffo hj, List.cons_append]

theorem findOverlappingLoop_ok_filter (gw : GapWriter) (txn : Txn)
    (expected : Option String) (dir : Direction) :
    ∀ (fuel : Nat) (l acc : List TimelineEvent) (nb : Option FragmentBoundaryEntry)
      (res : List TimelineEvent × Option FragmentBoundaryEntry),
      l.length ≤ fuel →
      gw.findOverlappingLoop txn expected dir fuel l acc nb = .ok res →
      res.1 = acc ++ l.filter (fun e => !txn.hasStoredEvent gw.roomId e.event_id) := by
  intro fuel
  induction fuel with
  | zero =>
    intro l acc nb res hlen h
    have hl : l = [] := List.length_eq_zero.mp (Nat.le_zero.mp hlen)
    subst hl
    unfold GapWriter.findOverlappingLoop at h
    injection h with h
    subst h
    simp
  | succ fu ih =>
    intro l acc nb res hlen h
    cases l with
    | nil =>
      unfold GapWriter.findOverlappingLoop at h
      injection h with h
      subst h
      simp
    | cons x rest =>
      unfold GapWriter.findOverlappingLoop at h
      cases hffo : txn.findFirstOccurringEventId gw.roomId
          ((x :: rest).map (fun e => e.event_id)) with
      | none =>
        rw [hffo] at h
        injection h with h
        subst h
        have hall := ffo_none_all txn gw.roomId (x :: rest) hffo
        rw [List.filter_eq_self.mpr (fun a ha => by simpa using hall a ha)]
      | some d =>
        rw [hffo] at h
        dsimp only at h
        cases hidx : findIndexOfEventId d (x :: rest) with
        | none =>
          rw [hidx] at h
          simp at h
        | some idx =>
          rw [hidx] at h
          dsimp only at h
          cases hpick : gw.pickNeighbour txn expected d dir nb with
          | error msg =>
            rw [hpick] at h
            simp at h
          | ok nb2 =>
            rw [hpick] at h
            have hlen2 : ((x :: rest).drop (idx + 1)).length ≤ fu := by
              rw [List.length_drop]
              simp only [List.length_cons] at hlen ⊢
              omega
            have hres := ih _ _ _ _ hlen2 h
            rw [hres, ffo_filter_split txn gw.roomId (x :: rest) d idx hffo hidx,
              List.append_assoc]

theorem findOverlappingEventsFor_filter (gw : GapWriter)
    (currentFragmentId linkedFragmentId : Option Nat) (dir : Direction)
    (chunk : List TimelineEvent) (txn : Txn) (res : OverlapResult)
    (h : gw.findOverlappingEventsFor currentFragmentId linkedFragmentId dir chunk txn
      = .ok res) :
    res.nonOverlappingEvents =
      chunk.filter (fun e => !txn.hasStoredEvent gw.roomId e.event_id) := by
  unfold GapWriter.findOverlappingEventsFor at h
  dsimp only at h
  set E := (match linkedFragmentId with
    | some lid => gw.findExpectedOverlappingEventId lid dir txn
    | none => none) with hE
  cases hloop : gw.findOverlappingLoop txn E dir chunk.length chunk [] none with
  | error msg =>
    rw [hloop] at h
    simp at h
  | ok p =>
    rw [hloop] at h
    obtain ⟨nov, nb⟩ := p
    dsimp only at h
    injection h with h
    subst h
    have hh := findOverlappingLoop_ok_filter gw txn E dir chunk.length chunk [] none
      (nov, nb) le_rfl hloop
    simpa using hh

/-! ## Lemmas about `_findMember` -/

theorem forScan_neg (userId : String) (events : List TimelineEvent) (inc : Int)
    (fuel : Nat) (i : Int) (hi : i < 0) :
    forScan userId events inc fuel i = none := by
  cases fuel with
  | zero => rfl
  | succ fu =>
    unfold forScan
    rw [if_neg]
    intro hc
    exact absurd hc.1 (by omega)

theorem forScan_up (userId : String) (events : List TimelineEvent) :
    ∀ (fuel j : Nat), events.length ≤ j + fuel →
      forScan userId events 1 fuel (j : Int) =
        scanForMember userId events (List.range' j (events.length - j)) := by
  intro fuel
  induction fuel with
  | zero =>
    intro j hj
    have h0 : events.length - j = 0 := by omega
    rw [h0]
    rfl
  | succ fu ih =>
    intro j hj
    unfold forScan
    by_cases hjl : j < events.length
    · rw [if_pos ⟨by exact_mod_cast j.zero_le, by exact_mod_cast hjl⟩]
      rw [Int.toNat_natCast, List.getElem?_eq_getElem hjl]
      have hr : events.length - j = (events.length - (j + 1)) + 1 := by omega
      rw [hr]
      show _ = scanForMember userId events
        (j :: List.range' (j + 1) (events.length - (j + 1)))
      unfold scanForMember
      rw [List.getElem?_eq_getElem hjl]
      dsimp only
      cases hu : isOurUser userId events[j] with
      | true => simp [hu]
      | false =>
        simp only [hu, Bool.false_eq_true, if_false]
        rw [show (j : Int) + 1 = ((j + 1 : Nat) : Int) from by omega,
          ih (j + 1) (by omega)]
    · rw [if_neg (fun hc => absurd hc.2 (by exact_mod_cast hjl))]
      have h0 : events.length - j = 0 := by omega
      rw [h0]
      rfl

theorem forScan_down (userId : String) (events : List TimelineEvent) :
    ∀ (fuel j : Nat), j < fuel → j < events.length →
      forScan userId events (-1) fuel (j : Int) =
        scanForMember userId events ((List.range (j + 1)).reverse) := by
  intro fuel
  induction fuel with
  | zero => intro j hj; omega
  | succ fu ih =>
    intro j hjf hjl
    unfold forScan
    rw [if_pos ⟨by exact_mod_cast j.zero_le, by exact_mod_cast hjl⟩]
    rw [Int.toNat_natCast, List.getElem?_eq_getElem hjl]
    rw [List.range_succ, List.reverse_append, List.reverse_singleton,
      List.singleton_append]
    unfold scanForMember
    rw [List.getElem?_eq_getElem hjl]
    dsimp only
    cases hu : isOurUser userId events[j] with
    | true => simp [hu]
    | false =>
      simp only [hu, Bool.false_eq_true, if_false]
      cases j with
      | zero =>
        rw [show ((0 : Nat) : Int) + -1 = -1 from by omega,
          forScan_neg _ _ _ _ _ (by omega)]
        rfl
      | succ k =>
        rw [show ((k + 1 : Nat) : Int) + -1 = (k : Int) from by omega,
          ih k (by omega) (by omega)]

theorem findMember_eq_spec (gw : GapWriter) (userId : String)
    (state : Option (List TimelineEvent)) (events : List TimelineEvent)
    (index : Nat) (dir : Direction) (hidx : index < events.length) :
    gw.findMember userId state events index dir =
      findMemberSpec gw userId state events index dir := by
  unfold GapWriter.findMember findMemberSpec
  cases dir with
  | backward =>
    dsimp only [Direction.isBackward, olderIndices, newerIndices]
    rw [show (if (true = true) then (1 : Int) else -1) = 1 from rfl]
    rw [show (index : Int) + 1 = ((index + 1 : Nat) : Int) from by omega,
      forScan_up userId events (events.length + 1) (index + 1) (by omega)]
    rw [forScan_down userId events (events.length + 1) index (by omega) hidx]
  | forward =>
    dsimp only [Direction.isBackward, olderIndices, newerIndices]
    rw [show (if (false = true) then (1 : Int) else -1) = -1 from rfl]
    rw [show -(-1 : Int) = (1 : Int) from by norm_num,
      forScan_up userId events (events.length + 1) index (by omega)]
    cases index with
    | zero =>
      rw [show ((0 : Nat) : Int) + -1 = -1 from by omega,
        forScan_neg _ _ _ _ _ (by omega)]
      rfl
    | succ k =>
      rw [show ((k + 1 : Nat) : Int) + -1 = (k : Int) from by omega,
        forScan_down userId events (events.length + 1) k (by omega) (by omega)]

/-! ## Lemmas about `_storeEvents`, `_linkOverlapping` and `writeContext` -/

theorem find?_some_of_mem {α : Type} (p : α → Bool) (l : List α) (a : α)
    (ha : a ∈ l) (hp : p a = true) : ∃ b, l.find? p = some b := by
  induction l with
  | nil => cases ha
  | cons x rest ih =>
    cases hx : p x with
    | true => exact ⟨x, List.find?_cons_of_pos rest hx⟩
    | false =>
      rcases List.mem_cons.mp ha with rfl | ha2
      · rw [hx] at hp; cases hp
      · rcases ih ha2 with ⟨b, hb⟩
        exact ⟨b, by rw [List.find?_cons_of_neg rest (by simp [hx]), hb]⟩

theorem storeEventsLoop_events_mono (gw : GapWriter) (allEvents : List TimelineEvent)
    (dir : Direction) (state : Option (List TimelineEvent)) :
    ∀ (rest : List TimelineEvent) (i : Nat) (key : EventKey)
      (entries : List TimelineEntry) (txn : Txn) (se : EventStorageEntry),
      se ∈ txn.events →
      se ∈ (gw.storeEventsLoop allEvents dir state rest i key entries txn).2.events := by
  intro rest
  induction rest with
  | nil => intro i key entries txn se hse; exact hse
  | cons x rs ih =>
    intro i key entries txn se hse
    unfold GapWriter.storeEventsLoop
    dsimp only
    exact ih _ _ _ _ se (List.mem_append_left _ hse)

theorem buildEventEntry_roomId (gw : GapWriter) (allEvents : List TimelineEvent)
    (dir : Direction) (state : Option (List TimelineEvent)) (i : Nat)
    (key : EventKey) (e : TimelineEvent) :
    (gw.buildEventEntry allEvents dir state i key e).roomId = gw.roomId := by
  unfold GapWriter.buildEventEntry createEventEntry
  split <;> rfl

theorem buildEventEntry_event (gw : GapWriter) (allEvents : List TimelineEvent)
    (dir : Direction) (state : Option (List TimelineEvent)) (i : Nat)
    (key : EventKey) (e : TimelineEvent) :
    (gw.buildEventEntry allEvents dir state i key e).event = e := by
  unfold GapWriter.buildEventEntry createEventEntry
  split <;> rfl

theorem storeEventsLoop_stores (gw : GapWriter) (allEvents : List TimelineEvent)
    (dir : Direction) (state : Option (List TimelineEvent)) :
    ∀ (rest : List TimelineEvent) (i : Nat) (key : EventKey)
      (entries : List TimelineEntry) (txn : Txn) (e : TimelineEvent), e ∈ rest →
      ∃ se, se ∈ (gw.storeEventsLoop allEvents dir state rest i key entries txn).2.events ∧
        se.roomId = gw.roomId ∧ se.event = e := by
  intro rest
  induction rest with
  | nil => intro i key entries txn e he; cases he
  | cons x rs ih =>
    intro i key entries txn e he
    rcases List.mem_cons.mp he with rfl | he2
    · refine ⟨gw.buildEventEntry allEvents dir state i (key.nextKeyForDirection dir) e,
        ?_, buildEventEntry_roomId .., buildEventEntry_event ..⟩
      unfold GapWriter.storeEventsLoop
      dsimp only
      exact storeEventsLoop_events_mono gw allEvents dir state _ _ _ _ _ _
        (List.mem_append_right _ (List.mem_singleton.mpr rfl))
    · unfold GapWriter.storeEventsLoop
      dsimp only
      exact ih _ _ _ _ e he2

theorem storeEvents_txn (gw : GapWriter) (events : List TimelineEvent)
    (key : EventKey) (dir : Direction) (state : Option (List TimelineEvent))
    (txn : Txn) :
    (gw.storeEvents events key dir state txn).2.2 =
      (gw.storeEventsLoop events dir state events 0 key [] txn).2 := by
  unfold GapWriter.storeEvents
  rcases h : gw.storeEventsLoop events dir state events 0 key [] txn with ⟨a, b⟩
  rfl

theorem linkOverlapping_stores_event (gw : GapWriter) (mo oo : OverlapResult)
    (event : TimelineEvent) (tok : Option String)
    (state : Option (List TimelineEvent)) (txn : Txn) (r : WriteResult) (txn1 : Txn)
    (h : gw.linkOverlapping mo oo event tok state txn = .ok (r, txn1)) :
    ∃ se, se ∈ txn1.events ∧ se.roomId = gw.roomId ∧ se.event = event := by
  unfold GapWriter.linkOverlapping at h
  cases hmo : mo.neighbourFragmentEntry with
  | none => rw [hmo] at h; simp at h
  | some fe =>
    rw [hmo] at h
    dsimp only at h
    rcases hst : gw.storeEvents
        (mo.nonOverlappingEvents.reverse ++ [event] ++ oo.nonOverlappingEvents)
        (gw.findFragmentEdgeEventKey fe txn) fe.direction state txn
      with ⟨entries, updatedEntries, txn2⟩
    rw [hst] at h
    dsimp only at h
    cases hupd : gw.updateFragments fe oo.neighbourFragmentEntry tok entries txn2 with
    | error msg => rw [hupd] at h; simp at h
    | ok ur =>
      rw [hupd] at h
      dsimp only at h
      injection h with h
      injection h with h1 h2
      subst h2
      have hev : ur.txn.events = txn2.events :=
        updateFragments_ok_events gw fe oo.neighbourFragmentEntry tok entries txn2 ur hupd
      have htxn2 : txn2 = (gw.storeEventsLoop
          (mo.nonOverlappingEvents.reverse ++ [event] ++ oo.nonOverlappingEvents)
          fe.direction state
          (mo.nonOverlappingEvents.reverse ++ [event] ++ oo.nonOverlappingEvents)
          0 (gw.findFragmentEdgeEventKey fe txn) [] txn).2 := by
        rw [← storeEvents_txn, hst]
      have hmem : event ∈ mo.nonOverlappingEvents.reverse ++ [event] ++
          oo.nonOverlappingEvents := by simp
      rcases storeEventsLoop_stores gw
          (mo.nonOverlappingEvents.reverse ++ [event] ++ oo.nonOverlappingEvents)
          fe.direction state _ 0 (gw.findFragmentEdgeEventKey fe txn) [] txn event hmem
        with ⟨se, hse, hroom, heq⟩
      exact ⟨se, by rw [hev, htxn2]; exact hse, hroom, heq⟩

theorem getByEventId_props (txn : Txn) (roomId eventId : String)
    (entry : EventStorageEntry) (h : txn.getByEventId roomId eventId = some entry) :
    entry ∈ txn.events ∧ entry.roomId = roomId ∧ entry.event.event_id = eventId := by
  unfold Txn.getByEventId at h
  refine ⟨List.mem_of_find?_eq_some h, ?_⟩
  have hp := List.find?_some h
  exact of_decide_eq_true hp

theorem writeContext_ok_stores_event (gw : GapWriter) (resp : ContextResponse)
    (txn : Txn) (r : WriteResult) (txn1 : Txn)
    (h : gw.writeContext resp txn = .ok (r, txn1)) :
    ∃ se, se ∈ txn1.events ∧ se.roomId = gw.roomId ∧
      se.event.event_id = resp.event.event_id := by
  unfold GapWriter.writeContext at h
  split at h
  · simp at h
  · cases hget : txn.getByEventId gw.roomId resp.event.event_id with
    | some entry =>
      rw [hget] at h
      dsimp only at h
      injection h with h
      injection h with h1 h2
      subst h2
      rcases getByEventId_props txn gw.roomId resp.event.event_id entry hget
        with ⟨hmem, hroom, hid⟩
      exact ⟨entry, hmem, hroom, hid⟩
    | none =>
      rw [hget] at h
      dsimp only at h
      cases hup : gw.findOverlappingEventsFor none none .backward resp.events_before txn with
      | error msg => rw [hup] at h; simp at h
      | ok overlapUp =>
        rw [hup] at h
        dsimp only at h
        cases hdown : gw.findOverlappingEventsFor none none .forward resp.events_after txn with
        | error msg => rw [hdown] at h; simp at h
        | ok overlapDown =>
          rw [hdown] at h
          dsimp only at h
          split at h
          · rcases linkOverlapping_stores_event gw overlapUp overlapDown resp.event
                resp.end_ resp.state txn r txn1 h with ⟨se, hse, hroom, hev⟩
            exact ⟨se, hse, hroom, by rw [hev]⟩
          · split at h
            · rcases linkOverlapping_stores_event gw overlapDown overlapUp resp.event
                  resp.start resp.state txn r txn1 h with ⟨se, hse, hroom, hev⟩
              exact ⟨se, hse, hroom, by rw [hev]⟩
            · rcases hcn : gw.createNewFragment txn with ⟨newFragment, txn2⟩
              rw [hcn] at h
              dsimp only at h
              rcases linkOverlapping_stores_event gw _ overlapDown resp.event
                  resp.end_ resp.state txn2 r txn1 h with ⟨se, hse, hroom, hev⟩
              exact ⟨se, hse, hroom, by rw [hev]⟩

theorem writeContext_falsy_check (gw : GapWriter) (resp : ContextResponse)
    (txn : Txn) (r : WriteResult) (txn1 : Txn)
    (h : gw.writeContext resp txn = .ok (r, txn1)) :
    ¬(isFalsyToken resp.start = true ∨ isFalsyToken resp.end_ = true) := by
  intro hcon
  unfold GapWriter.writeContext at h
  rw [if_pos hcon] at h
  simp at h

theorem writeContext_second_early (gw : GapWriter) (resp : ContextResponse)
    (txn : Txn) (r : WriteResult) (txn1 : Txn)
    (h : gw.writeContext resp txn = .ok (r, txn1)) :
    ∃ entry, gw.writeContext resp txn1 =
      .ok ({ entries := [], updatedEntries := [], fragments := [],
             contextEvent := some (.event entry) }, txn1) := by
  have hfalsy := writeContext_falsy_check gw resp txn r txn1 h
  obtain ⟨se, hmem, hroom, hid⟩ := writeContext_ok_stores_event gw resp txn r txn1 h
  have hfound : ∃ entry, txn1.getByEventId gw.roomId resp.event.event_id = some entry := by
    unfold Txn.getByEventId
    exact find?_some_of_mem _ txn1.events se hmem (by simp [hroom, hid])
  obtain ⟨entry, hentry⟩ := hfound
  refine ⟨entry, ?_⟩
  unfold GapWriter.writeContext
  rw [if_neg hfalsy, hentry]

theorem fill_empty_chunk_entries (gw : GapWriter) (fe : FragmentBoundaryEntry)
    (resp : MessagesResponse) (txn : Txn) (out : WriteResult × Txn)
    (hchunk : resp.chunk = [])
    (h : gw.writeFragmentFill fe resp txn = .ok out) :
    ∃ fe2 : FragmentBoundaryEntry, out.1.entries = [.fragmentBoundary fe2] ∧
      fe2.fragment.edgeReached = true ∧ fe2.token = some resp.start := by
  obtain ⟨f, hf, htok⟩ := fill_ok_token gw fe resp txn out h
  cases hend : resp.end_ with
  | none =>
    rw [fill_end_none gw fe resp txn hend] at h
    simp at h
  | some e0 =>
    rw [fill_empty_chunk gw fe resp txn f e0 hchunk hend hf htok] at h
    injection h with h
    subst h
    refine ⟨(fe.withUpdatedFragment f).setEdgeReached true, rfl, rfl, ?_⟩
    rw [setEdgeReached_token]
    exact htok

/-! ## Claims -/

/-- C1 (code bug): the spec states that after every successful GapWriter
operation no stored fragment satisfies `id = previousId` or `id = nextId`,
including when `writeContext`'s backward and forward overlap searches both
identify a neighbour fragment.  The code violates this: on `c1txn` (a
self-link-free store where fragment 1 holds events `a` and `b`) the
context response for the missing event `e` with `a` before and `b` after
makes both searches find fragment 1; `writeContext` is called with
`currentFragmentId = null` so the self-link guard never fires, and
`_linkOverlapping` links fragment 1 to itself — the call succeeds and the
stored fragment has `nextId = id = 1` (the hazard the source's own TODO
comment describes). -/
theorem c1_writeContext_creates_self_link :
    Txn.selfLinkFree c1txn = true ∧
    writeOutcomeOk (exGw.writeContext c1resp c1txn) = true ∧
    writeOutcomeSelfLinkFree (exGw.writeContext c1resp c1txn) = false :=
  ⟨rfl, rfl, rfl⟩

/-- C2 (counterexample): the claimed invariant — a side's token is
non-null iff the side is an unresolved gap, null iff linked or
`edgeReached` — is not preserved by every successful `writeFragmentFill`:
on `c2txn` (where both sides of fragment 1 carry tokens, satisfying the
invariant) an empty-chunk fill succeeds, sets `edgeReached = true` and
leaves the side's token equal to `start`, so the token is non-null on an
`edgeReached` side. -/
theorem c2_token_invariant_counterexample :
    Txn.tokenInvariant c2txn = true ∧
    writeOutcomeOk (exGw.writeFragmentFill c2fe c2resp c2txn) = true ∧
    writeOutcomeTokenInvariant (exGw.writeFragmentFill c2fe c2resp c2txn) = false :=
  ⟨rfl, rfl, rfl⟩

/-- C2 (amended): linking a neighbour clears both joined-side tokens
(every successful `_updateFragments` with a neighbour returns both changed
fragments with their joined-side tokens null); but the empty-chunk path
sets `edgeReached` while leaving the side's token equal to
`response.start` — it is not cleared, so the strict iff of the original
claim does not hold on that path. -/
theorem c2_amended_tokens :
    (∀ (gw : GapWriter) (fe n : FragmentBoundaryEntry) (endToken : Option String)
       (entries : List TimelineEntry) (txn : Txn) (r : UpdateFragmentsResult),
       gw.updateFragments fe (some n) endToken entries txn = .ok r →
       ∃ ff nf, r.changedFragments = [ff, nf] ∧
         ff.sideToken fe.direction = none ∧ nf.sideToken n.direction = none) ∧
    (∀ (gw : GapWriter) (fe : FragmentBoundaryEntry) (resp : MessagesResponse)
       (txn : Txn) (out : WriteResult × Txn), resp.chunk = [] →
       gw.writeFragmentFill fe resp txn = .ok out →
       ∃ fe2 : FragmentBoundaryEntry, out.1.entries = [.fragmentBoundary fe2] ∧
         fe2.fragment.edgeReached = true ∧ fe2.token = some resp.start) := by
  constructor
  · intro gw fe n endToken entries txn r h
    obtain ⟨ff, nf, hc, _, _, ht1, ht2⟩ :=
      updateFragments_link_ok gw fe n endToken entries txn r h
    exact ⟨ff, nf, hc, ht1, ht2⟩
  · intro gw fe resp txn out hchunk h
    exact fill_empty_chunk_entries gw fe resp txn out hchunk h

theorem c2_amended_witness :
    (∃ ff nf, c4linkResult.changedFragments = [ff, nf] ∧
      ff.sideToken c4fe.direction = none ∧ nf.sideToken c4n.direction = none) ∧
    (∃ fe2 : FragmentBoundaryEntry, c2fillOut.1.entries = [.fragmentBoundary fe2] ∧
      fe2.fragment.edgeReached = true ∧ fe2.token = some c2resp.start) :=
  ⟨c2_amended_tokens.1 exGw c4fe c4n (some "e") [] c4txn c4linkResult rfl,
   c2_amended_tokens.2 exGw c2fe c2resp c2txn c2fillOut rfl rfl⟩

/-- C3: `writeFragmentFill` reloads the fragment from storage and fails
with an error whenever the reloaded entry's token differs from
`response.start` (writing nothing, since the error aborts the
transaction); it proceeds only when the two are equal — every successful
call reloaded a fragment whose side token equals `response.start`. -/
theorem c3_token_guard :
    (∀ (gw : GapWriter) (fe : FragmentBoundaryEntry) (resp : MessagesResponse)
       (txn : Txn), writeOutcomeOk (gw.writeFragmentFill fe resp txn) = true →
       ∃ f, txn.getFragment gw.roomId fe.fragmentId = some f ∧
         (fe.withUpdatedFragment f).token = some resp.start) ∧
    (∀ (gw : GapWriter) (fe : FragmentBoundaryEntry) (resp : MessagesResponse)
       (txn : Txn) (f : Fragment),
       txn.getFragment gw.roomId fe.fragmentId = some f →
       (fe.withUpdatedFragment f).token ≠ some resp.start →
       ∃ msg, gw.writeFragmentFill fe resp txn = .error msg) := by
  constructor
  · intro gw fe resp txn h
    cases hout : gw.writeFragmentFill fe resp txn with
    | error msg => rw [hout] at h; simp [writeOutcomeOk] at h
    | ok out => exact fill_ok_token gw fe resp txn out hout
  · intro gw fe resp txn f hf hne
    exact fill_stale_token_error gw fe resp txn f hf hne

theorem c3_witness :
    (∃ f, c5txn.getFragment exGw.roomId c5fe.fragmentId = some f ∧
      (c5fe.withUpdatedFragment f).token = some c5resp.start) ∧
    (∃ msg, exGw.writeFragmentFill c5fe c3badResp c5txn = .error msg) :=
  ⟨c3_token_guard.1 exGw c5fe c5resp c5txn (by decide),
   c3_token_guard.2 exGw c5fe c3badResp c5txn c5frag (by decide) (by decide)⟩

/-- C4: when `_updateFragments` is given a neighbour entry, each of the
two entries gets its joining-side link set to the other's fragment id
whenever that is compatible (unset, or already equal); if either side is
already linked to a different fragment the call fails with the
invariant-violation error, and the error aborts the transaction so the
existing link is never overwritten. -/
theorem c4_link_conflicts :
    (∀ (gw : GapWriter) (fe n : FragmentBoundaryEntry) (endToken : Option String)
       (entries : List TimelineEntry) (txn : Txn) (r : UpdateFragmentsResult),
       gw.updateFragments fe (some n) endToken entries txn = .ok r →
       ∃ ff nf, r.changedFragments = [ff, nf] ∧
         ff.sideLinkedId fe.direction = some n.fragmentId ∧
         nf.sideLinkedId n.direction = some fe.fragmentId) ∧
    (∀ (gw : GapWriter) (fe n : FragmentBoundaryEntry) (endToken : Option String)
       (entries : List TimelineEntry) (txn : Txn) (x : Nat),
       fe.linkedFragmentId = some x → x ≠ n.fragmentId →
       gw.updateFragments fe (some n) endToken entries txn =
         .error "Prevented changing fragment link of fragment entry") ∧
    (∀ (gw : GapWriter) (fe n : FragmentBoundaryEntry) (endToken : Option String)
       (entries : List TimelineEntry) (txn : Txn) (y : Nat),
       (fe.linkedFragmentId = none ∨ fe.linkedFragmentId = some n.fragmentId) →
       n.linkedFragmentId = some y → y ≠ fe.fragmentId →
       gw.updateFragments fe (some n) endToken entries txn =
         .error "Prevented changing fragment link of neighbour entry") := by
  refine ⟨?_, ?_, ?_⟩
  · intro gw fe n endToken entries txn r h
    obtain ⟨ff, nf, hc, hl1, hl2, _, _⟩ :=
      updateFragments_link_ok gw fe n endToken entries txn r h
    exact ⟨ff, nf, hc, hl1, hl2⟩
  · intro gw fe n endToken entries txn x hx hne
    exact updateFragments_conflict_fe gw fe n endToken entries txn x hx hne
  · intro gw fe n endToken entries txn y hfe hy hne
    exact updateFragments_conflict_n gw fe n endToken entries txn y hfe hy hne

theorem c4_witness :
    (∃ ff nf, c4linkResult.changedFragments = [ff, nf] ∧
      ff.sideLinkedId c4fe.direction = some c4n.fragmentId ∧
      nf.sideLinkedId c4n.direction = some c4fe.fragmentId) ∧
    exGw.updateFragments c4feConflict (some c4n) (some "e") [] c4txn =
      .error "Prevented changing fragment link of fragment entry" ∧
    exGw.updateFragments c4fe (some c4nConflict) (some "e") [] c4txn =
      .error "Prevented changing fragment link of neighbour entry" :=
  ⟨c4_link_conflicts.1 exGw c4fe c4n (some "e") [] c4txn c4linkResult rfl,
   c4_link_conflicts.2.1 exGw c4feConflict c4n (some "e") [] c4txn 3
     (by decide) (by decide),
   c4_link_conflicts.2.2 exGw c4fe c4nConflict (some "e") [] c4txn 9
     (Or.inl (by decide)) (by decide) (by decide)⟩

/-- C5 (counterexample): writing the same `/messages` response twice does
not behave as claimed — the second `writeFragmentFill` call does not
succeed.  On the `c5` inputs the first fill succeeds (moving the side
token from `t1` to `t2`); the second call with the same response then
fails the stale-token guard. -/
theorem c5_second_write_counterexample :
    writeOutcomeOk (exGw.writeFragmentFill c5fe c5resp c5txn) = true ∧
    writeOutcomeOk (secondFill exGw c5fe c5resp c5txn) = false :=
  ⟨rfl, rfl⟩

/-- C5 (amended): a second run of the same `/context` response through
`writeContext` succeeds and leaves the on-disk state unchanged (the
centre event is stored by the first run, so the second early-returns with
empty entries on the same transaction); but a second `writeFragmentFill`
of the same response fails the stale-token guard whenever the first run
left the side's token different from `response.start` (which it does for
every non-empty chunk, as the token becomes `end` or null), aborting the
transaction and hence changing nothing. -/
theorem c5_amended_idempotence :
    (∀ (gw : GapWriter) (resp : ContextResponse) (txn : Txn) (r : WriteResult)
       (txn1 : Txn), gw.writeContext resp txn = .ok (r, txn1) →
       ∃ r2, gw.writeContext resp txn1 = .ok (r2, txn1) ∧
         r2.entries = [] ∧ r2.updatedEntries = [] ∧ r2.fragments = []) ∧
    (∀ (gw : GapWriter) (fe : FragmentBoundaryEntry) (resp : MessagesResponse)
       (txn : Txn) (r : WriteResult) (txn1 : Txn) (f : Fragment),
       gw.writeFragmentFill fe resp txn = .ok (r, txn1) →
       txn1.getFragment gw.roomId fe.fragmentId = some f →
       (fe.withUpdatedFragment f).token ≠ some resp.start →
       ∃ msg, gw.writeFragmentFill fe resp txn1 = .error msg) := by
  constructor
  · intro gw resp txn r txn1 h
    obtain ⟨entry, he⟩ := writeContext_second_early gw resp txn r txn1 h
    exact ⟨_, he, rfl, rfl, rfl⟩
  · intro gw fe resp txn r txn1 f hfst hf hne
    exact fill_stale_token_error gw fe resp txn1 f hf hne

theorem c5_amended_witness :
    (∃ r2, exGw.writeContext c5ctxResp c5ctxTxn = .ok (r2, c5ctxTxn) ∧
      r2.entries = [] ∧ r2.updatedEntries = [] ∧ r2.fragments = []) ∧
    (∃ msg, exGw.writeFragmentFill c5fe c5resp c5fillTxn = .error msg) :=
  ⟨c5_amended_idempotence.1 exGw c5ctxResp c5ctxTxn c5ctxResult c5ctxTxn rfl,
   c5_amended_idempotence.2 exGw c5fe c5resp c5txn c5fillResult c5fillTxn c5fillFrag
     rfl (by decide) (by decide)⟩

/-- C6: for every chunk, each duplicate found at index `i` contributes
exactly `chunk[0..i)` to `nonOverlappingEvents` and scanning continues
from `chunk[i+1..)` regardless of whether the duplicate was the expected
overlapping event, so on success `nonOverlappingEvents` is exactly the
chunk with every already-stored event dropped, in order — the
concatenation of the non-duplicate runs. -/
theorem c6_nonoverlapping_filter (gw : GapWriter)
    (currentFragmentId linkedFragmentId : Option Nat) (dir : Direction)
    (chunk : List TimelineEvent) (txn : Txn) (res : OverlapResult)
    (h : gw.findOverlappingEventsFor currentFragmentId linkedFragmentId dir chunk txn
      = .ok res) :
    res.nonOverlappingEvents =
      chunk.filter (fun e => !txn.hasStoredEvent gw.roomId e.event_id) :=
  findOverlappingEventsFor_filter gw currentFragmentId linkedFragmentId dir chunk
    txn res h

theorem c6_witness :
    c6res.nonOverlappingEvents =
      [evA, evB].filter (fun e => !c6txn.hasStoredEvent exGw.roomId e.event_id) :=
  c6_nonoverlapping_filter exGw none none .backward [evA, evB] c6txn c6res rfl

/-- C7: a `writeFragmentFill` whose chunk is empty (after the token guard
passes) sets `edgeReached := true` on the reloaded fragment, persists it,
and returns `{ entries := [fragmentEntry], updatedEntries := [],
fragments := [] }`; no events are stored (the event table is untouched)
and no links are created (both link fields keep the reloaded fragment's
values). -/
theorem c7_empty_chunk_result (gw : GapWriter) (fe : FragmentBoundaryEntry)
    (resp : MessagesResponse) (txn : Txn) (f : Fragment) (e0 : String)
    (hchunk : resp.chunk = []) (hend : resp.end_ = some e0)
    (hf : txn.getFragment gw.roomId fe.fragmentId = some f)
    (htok : (fe.withUpdatedFragment f).token = some resp.start) :
    gw.writeFragmentFill fe resp txn =
      .ok ({ entries := [.fragmentBoundary
                ((fe.withUpdatedFragment f).setEdgeReached true)],
             updatedEntries := [], fragments := [], contextEvent := none },
           txn.updateFragment gw.roomId
             (((fe.withUpdatedFragment f).setEdgeReached true).fragment)) ∧
    (txn.updateFragment gw.roomId
      (((fe.withUpdatedFragment f).setEdgeReached true).fragment)).events =
        txn.events ∧
    ((fe.withUpdatedFragment f).setEdgeReached true).fragment.previousId =
      f.previousId ∧
    ((fe.withUpdatedFragment f).setEdgeReached true).fragment.nextId = f.nextId :=
  ⟨fill_empty_chunk gw fe resp txn f e0 hchunk hend hf htok, rfl, rfl, rfl⟩

theorem c7_witness :
    writeOutcomeOk (exGw.writeFragmentFill c2fe c2resp c2txn) = true ∧
    (c2txn.updateFragment exGw.roomId
      (((c2fe.withUpdatedFragment c2frag).setEdgeReached true).fragment)).events =
        c2txn.events := by
  have h := c7_empty_chunk_result exGw c2fe c2resp c2txn c2frag "x" rfl rfl
    (by decide) (by decide)
  exact ⟨by rw [h.1]; rfl, h.2.1⟩

/-- C8: sender resolution first scans chronologically older in-chunk
events (toward higher indices for Backward, lower for Forward) returning
a member built from the match's `content`; only if none matches does it
scan newer in-chunk events, returning a replacing member built from the
match's `prev_content`; only after both scans fail does it consult the
chunk's state list (using `content`); otherwise it returns nothing —
`_findMember` coincides with this priority description for every in-range
index — and when it returns nothing the stored entry gets no display-name
or avatar stamped. -/
theorem c8_member_resolution_order :
    (∀ (gw : GapWriter) (userId : String) (state : Option (List TimelineEvent))
       (events : List TimelineEvent) (index : Nat) (dir : Direction),
       index < events.length →
       gw.findMember userId state events index dir =
         findMemberSpec gw userId state events index dir) ∧
    (∀ (gw : GapWriter) (allEvents : List TimelineEvent) (dir : Direction)
       (state : Option (List TimelineEvent)) (i : Nat) (key : EventKey)
       (event : TimelineEvent),
       gw.findMember event.sender state allEvents i dir = none →
       (gw.buildEventEntry allEvents dir state i key event).displayName = none ∧
       (gw.buildEventEntry allEvents dir state i key event).avatarUrl = none) := by
  constructor
  · intro gw u st es i d h
    exact findMember_eq_spec gw u st es i d h
  · intro gw es d st i k e h
    unfold GapWriter.buildEventEntry
    rw [h]
    exact ⟨rfl, rfl⟩

theorem c8_witness :
    exGw.findMember "@x:hs" none c8events 0 .backward =
      findMemberSpec exGw "@x:hs" none c8events 0 .backward ∧
    (exGw.buildEventEntry [evA] .backward none 0 c8key evA).displayName = none ∧
    (exGw.buildEventEntry [evA] .backward none 0 c8key evA).avatarUrl = none :=
  ⟨c8_member_resolution_order.1 exGw "@x:hs" none c8events 0 .backward (by decide),
   c8_member_resolution_order.2 exGw [evA] .backward none 0 c8key evA (by decide)⟩

/-- C9: when the centre event of a `/context` response is already stored
for the room, `writeContext` returns early with the existing entry as
`contextEvent` and empty `entries`, `updatedEntries` and `fragments`, on
the unchanged transaction — no events are written and no fragments are
mutated. -/
theorem c9_context_early_return (gw : GapWriter) (resp : ContextResponse)
    (txn : Txn) (entry : EventStorageEntry)
    (hs : isFalsyToken resp.start = false) (he : isFalsyToken resp.end_ = false)
    (hget : txn.getByEventId gw.roomId resp.event.event_id = some entry) :
    gw.writeContext resp txn =
      .ok ({ entries := [], updatedEntries := [], fragments := [],
             contextEvent := some (.event entry) }, txn) := by
  unfold GapWriter.writeContext
  rw [if_neg, hget]
  rintro (hc | hc)
  · rw [hs] at hc
    cases hc
  · rw [he] at hc
    cases hc

theorem c9_witness :
    exGw.writeContext c9resp c9txn =
      .ok ({ entries := [], updatedEntries := [], fragments := [],
             contextEvent := some (.event c9entry) }, c9txn) :=
  c9_context_early_return exGw c9resp c9txn c9entry rfl rfl (by decide)

/-- C10: the second (newer-direction) scan of sender resolution starts at
the event's own index: if `events[index]` is itself an `m.room.member`
event whose `state_key` equals its own sender, and no chronologically
older in-chunk event matches, then `_findMember` returns the replacing
member built from `events[index]` itself (its `prev_content`), rather
than falling through to the state list or returning nothing. -/
theorem c10_second_scan_starts_at_index (gw : GapWriter)
    (state : Option (List TimelineEvent)) (events : List TimelineEvent)
    (index : Nat) (dir : Direction) (e : TimelineEvent)
    (hev : events[index]? = some e) (hmem : isOurUser e.sender e = true)
    (holder : scanForMember e.sender events
      (olderIndices dir index events.length) = none) :
    gw.findMember e.sender state events index dir =
      some (RoomMember.fromReplacingMemberEvent gw.roomId e) := by
  have hlen : index < events.length := by
    by_contra hc
    rw [List.getElem?_eq_none (le_of_not_lt hc)] at hev
    cases hev
  rw [findMember_eq_spec gw e.sender state events index dir hlen]
  unfold findMemberSpec
  rw [holder]
  dsimp only
  cases dir with
  | backward =>
    dsimp only [newerIndices]
    rw [List.range_succ, List.reverse_append, List.reverse_singleton,
      List.singleton_append]
    unfold scanForMember
    rw [hev]
    dsimp only
    rw [if_pos hmem]
  | forward =>
    dsimp only [newerIndices]
    rw [show events.length - index = (events.length - (index + 1)) + 1 from by omega]
    show (match scanForMember e.sender events
        (index :: List.range' (index + 1) (events.length - (index + 1))) with
      | some e2 => some (RoomMember.fromReplacingMemberEvent gw.roomId e2)
      | none =>
        match state.bind fun s => List.find? (isOurUser e.sender) s with
        | some e2 => some (RoomMember.fromMemberEvent gw.roomId e2)
        | none => none) = some (RoomMember.fromReplacingMemberEvent gw.roomId e)
    unfold scanForMember
    rw [hev]
    dsimp only
    rw [if_pos hmem]

theorem c10_witness :
    exGw.findMember "@x:hs" none c10events 0 .backward =
      some (RoomMember.fromReplacingMemberEvent exGw.roomId evMemberRename) :=
  c10_second_scan_starts_at_index exGw none c10events 0 .backward evMemberRename
    rfl (by decide) (by decide)
